import Mathlib

/-!
Verification development for the narrowing-cast analysis plugin
(src/narrowing_cast_plugin.cc).

The development shallowly embeds the plugin's data model and operations:

* GCC semantic types (`tree` nodes that denote types) become `GTyp`:
  a code (`TREE_CODE`), a bit precision (`TYPE_PRECISION`), an optional
  main-variant link (`TYPE_MAIN_VARIANT`; `none` means the type is its own
  main variant), the `TYPE_ARG_TYPES` chain of a function type (the list of
  `TREE_VALUE`s of the parameter `TREE_LIST`; an absent chain is the empty
  list), and the `TYPE_NAME` payload.
* AST nodes become `Tree`: a code, a `TREE_TYPE`, the operand vector
  (`TREE_OPERAND` / `TREE_OPERAND_LENGTH`), `DECL_INITIAL`, the statement
  list of a `STATEMENT_LIST` node, an `EXPR_LOCATION`, a
  `DECL_SOURCE_LOCATION`, and the numeric payload of constant nodes
  (`cstValue`, which the analysis never reads).
* `NULL_TREE` is modelled by `Option`: a null tree is `none`.
* Pointer identity with the unique nodes `error_mark_node` and
  `void_type_node` is modelled by their codes `ERROR_MARK` and `VOID_TYPE`,
  which in GCC identify exactly those nodes in the positions compared here.
* The open-ended node vocabulary is modelled by the constructor
  `UNKNOWN_CODE`, which carries its `TREE_CODE_CLASS` and an arbitrary tag.
* Source locations are opaque naturals; `UNKNOWN_LOCATION` is `0` and the
  global `input_location` fallback is a fixed distinguished value.
-/

namespace NarrowingPlugin

/-- TREE_CODE values of type nodes that the plugin distinguishes. Codes other
than the ones the plugin compares against are collapsed into `OTHER_TYPE`. -/
inductive TypeCode where
  | INTEGER_TYPE
  | REAL_TYPE
  | VOID_TYPE
  | FUNCTION_TYPE
  | ERROR_MARK
  | OTHER_TYPE (tag : Nat)
deriving DecidableEq

/-- TYPE_NAME of a type: an IDENTIFIER_NODE, a TYPE_DECL (whose DECL_NAME may
be absent), or some other node kind. -/
inductive TypeNameNode where
  | IDENTIFIER_NODE (s : String)
  | TYPE_DECL (declName : Option String)
  | otherName
deriving DecidableEq

/-- A GCC semantic type. Fields, in order: `TREE_CODE`, `TYPE_PRECISION`,
`TYPE_MAIN_VARIANT` (`none` when the type is its own main variant),
`TYPE_ARG_TYPES` (the `TREE_VALUE`s of the parameter chain; `[]` when the
chain is null), and `TYPE_NAME`. -/
inductive GTyp where
  | mk (code : TypeCode) (precision : Nat) (main : Option GTyp)
      (argTypes : List (Option GTyp)) (tname : Option TypeNameNode)

/-- TREE_CODE of a type node. -/
def GTyp.code : GTyp → TypeCode
  | .mk c _ _ _ _ => c

/-- TYPE_PRECISION of a type node. -/
def TYPE_PRECISION : GTyp → Nat
  | .mk _ p _ _ _ => p

/-- TYPE_MAIN_VARIANT of a type node: the type itself when it is its own
main variant, otherwise the linked main variant. -/
def TYPE_MAIN_VARIANT (t : GTyp) : GTyp :=
  match t with
  | .mk _ _ (some m) _ _ => m
  | .mk c p none a n => .mk c p none a n

/-- TYPE_ARG_TYPES of a function type: the list of parameter types in the
chain (each one a `TREE_VALUE`, possibly null). -/
def TYPE_ARG_TYPES : GTyp → List (Option GTyp)
  | .mk _ _ _ a _ => a

/-- TYPE_NAME of a type node. -/
def TYPE_NAME : GTyp → Option TypeNameNode
  | .mk _ _ _ _ n => n

/-- The comparison `t == error_mark_node`: `error_mark_node` is the unique
tree whose code is `ERROR_MARK`, so pointer identity with it is code
identity. -/
def is_error_mark (t : GTyp) : Bool :=
  t.code == TypeCode.ERROR_MARK

/-- The comparison `t == void_type_node` used on a `TREE_VALUE` of a
parameter chain: in that position the terminator is exactly the unique
`VOID_TYPE` node. -/
def is_void_type_node (t : GTyp) : Bool :=
  t.code == TypeCode.VOID_TYPE

/-- Translation of `get_type_name` (plugin lines 49-63): a printable name for
a type. The two name shapes carry their resolved identifier strings. -/
def get_type_name (type : Option GTyp) : String :=
  match type with
  | none => "<null type>"
  | some ty =>
    match TYPE_NAME ty with
    | none => "<anonymous type>"
    | some (.IDENTIFIER_NODE s) => s
    | some (.TYPE_DECL (some s)) => s
    | some (.TYPE_DECL none) => "<unhandled type name>"
    | some .otherName => "<unhandled type name>"

/-- Translation of `is_numeric_type` (plugin lines 66-70): null is not
numeric; otherwise take the main variant and ask whether its code is
`INTEGER_TYPE` or `REAL_TYPE`. -/
def is_numeric_type (type : Option GTyp) : Bool :=
  match type with
  | none => false
  | some t0 =>
    let t := TYPE_MAIN_VARIANT t0
    t.code == TypeCode.INTEGER_TYPE || t.code == TypeCode.REAL_TYPE

/-- TREE_CODE_CLASS values (the `tcc_*` enumeration). -/
inductive TCC where
  | tcc_exceptional
  | tcc_constant
  | tcc_type
  | tcc_declaration
  | tcc_reference
  | tcc_comparison
  | tcc_unary
  | tcc_binary
  | tcc_statement
  | tcc_vl_exp
  | tcc_expression
deriving DecidableEq

/-- TREE_CODE values of AST nodes. The constructors are the codes named in
the plugin's two switches; `UNKNOWN_CODE` stands for every other code of the
open-ended vocabulary and carries its `TREE_CODE_CLASS` and a tag. -/
inductive TreeCode where
  | PLUS_EXPR | MINUS_EXPR | MULT_EXPR | TRUNC_DIV_EXPR
  | CEIL_DIV_EXPR | FLOOR_DIV_EXPR | ROUND_DIV_EXPR
  | TRUNC_MOD_EXPR | CEIL_MOD_EXPR | FLOOR_MOD_EXPR | ROUND_MOD_EXPR
  | RDIV_EXPR | EXACT_DIV_EXPR | ADDR_EXPR | FDESC_EXPR
  | BIT_IOR_EXPR | BIT_XOR_EXPR | BIT_AND_EXPR | BIT_NOT_EXPR
  | TRUTH_ANDIF_EXPR | TRUTH_ORIF_EXPR | TRUTH_AND_EXPR
  | TRUTH_OR_EXPR | TRUTH_XOR_EXPR | TRUTH_NOT_EXPR | LT_EXPR
  | LE_EXPR | GT_EXPR | GE_EXPR | EQ_EXPR | NE_EXPR
  | UNORDERED_EXPR | ORDERED_EXPR | UNLT_EXPR | UNLE_EXPR
  | UNGT_EXPR | UNGE_EXPR | UNEQ_EXPR | LTGT_EXPR
  | INDIRECT_REF | COMPOUND_EXPR | MODIFY_EXPR | INIT_EXPR
  | TARGET_EXPR | COND_EXPR | VEC_COND_EXPR | VEC_PERM_EXPR
  | CALL_EXPR | WITH_CLEANUP_EXPR | CLEANUP_POINT_EXPR
  | CONSTRUCTOR | COMPOUND_LITERAL_EXPR | SAVE_EXPR
  | REALIGN_LOAD_EXPR | CONVERT_EXPR | NOP_EXPR | VIEW_CONVERT_EXPR
  | NON_LVALUE_EXPR | ABS_EXPR
  | LSHIFT_EXPR | RSHIFT_EXPR | LROTATE_EXPR | RROTATE_EXPR
  | FLOAT_EXPR | FIX_TRUNC_EXPR
  | BIND_EXPR | STATEMENT_LIST | EXPR_STMT | IF_STMT | FOR_STMT
  | WHILE_STMT | DO_STMT | SWITCH_STMT | CASE_LABEL_EXPR | DECL_EXPR
  | RETURN_EXPR
  | VAR_DECL | PARM_DECL | FIELD_DECL | FUNCTION_DECL
  | UNKNOWN_CODE (cls : TCC) (tag : Nat)

/-- TREE_CODE_CLASS of each code, following GCC's tree.def. The class of an
unknown code is whatever class that code has. -/
def TREE_CODE_CLASS (c : TreeCode) : TCC :=
  match c with
  | .PLUS_EXPR | .MINUS_EXPR | .MULT_EXPR | .TRUNC_DIV_EXPR
  | .CEIL_DIV_EXPR | .FLOOR_DIV_EXPR | .ROUND_DIV_EXPR
  | .TRUNC_MOD_EXPR | .CEIL_MOD_EXPR | .FLOOR_MOD_EXPR | .ROUND_MOD_EXPR
  | .RDIV_EXPR | .EXACT_DIV_EXPR
  | .BIT_IOR_EXPR | .BIT_XOR_EXPR | .BIT_AND_EXPR
  | .LSHIFT_EXPR | .RSHIFT_EXPR | .LROTATE_EXPR | .RROTATE_EXPR => .tcc_binary
  | .BIT_NOT_EXPR | .ABS_EXPR | .NON_LVALUE_EXPR | .CONVERT_EXPR
  | .NOP_EXPR | .FLOAT_EXPR | .FIX_TRUNC_EXPR => .tcc_unary
  | .VIEW_CONVERT_EXPR | .INDIRECT_REF => .tcc_reference
  | .LT_EXPR | .LE_EXPR | .GT_EXPR | .GE_EXPR | .EQ_EXPR | .NE_EXPR
  | .UNORDERED_EXPR | .ORDERED_EXPR | .UNLT_EXPR | .UNLE_EXPR
  | .UNGT_EXPR | .UNGE_EXPR | .UNEQ_EXPR | .LTGT_EXPR => .tcc_comparison
  | .TRUTH_ANDIF_EXPR | .TRUTH_ORIF_EXPR | .TRUTH_AND_EXPR
  | .TRUTH_OR_EXPR | .TRUTH_XOR_EXPR | .TRUTH_NOT_EXPR
  | .ADDR_EXPR | .FDESC_EXPR | .COMPOUND_EXPR | .MODIFY_EXPR | .INIT_EXPR
  | .TARGET_EXPR | .COND_EXPR | .VEC_COND_EXPR | .VEC_PERM_EXPR
  | .WITH_CLEANUP_EXPR | .CLEANUP_POINT_EXPR | .COMPOUND_LITERAL_EXPR
  | .SAVE_EXPR | .REALIGN_LOAD_EXPR | .BIND_EXPR => .tcc_expression
  | .CALL_EXPR => .tcc_vl_exp
  | .CONSTRUCTOR | .STATEMENT_LIST => .tcc_exceptional
  | .RETURN_EXPR | .CASE_LABEL_EXPR | .DECL_EXPR | .EXPR_STMT | .IF_STMT
  | .FOR_STMT | .WHILE_STMT | .DO_STMT | .SWITCH_STMT => .tcc_statement
  | .VAR_DECL | .PARM_DECL | .FIELD_DECL | .FUNCTION_DECL => .tcc_declaration
  | .UNKNOWN_CODE cls _ => cls

/-- An AST node. Fields, in order: `TREE_CODE`, `TREE_TYPE`, the operand
vector, `DECL_INITIAL`, the statements of a `STATEMENT_LIST`,
`EXPR_LOCATION` (0 is `UNKNOWN_LOCATION`), `DECL_SOURCE_LOCATION`, and the
numeric payload of a constant node, which the analysis never inspects. -/
inductive Tree where
  | mk (code : TreeCode) (ttype : Option GTyp) (ops : List (Option Tree))
      (declInitial : Option Tree) (stmts : List Tree)
      (exprLoc : Nat) (declSrcLoc : Nat) (cstValue : Int)

/-- TREE_CODE of a node. -/
def Tree.code : Tree → TreeCode
  | .mk c _ _ _ _ _ _ _ => c

/-- TREE_TYPE of a node (possibly null). -/
def TREE_TYPE : Tree → Option GTyp
  | .mk _ ty _ _ _ _ _ _ => ty

/-- The operand vector of a node. -/
def Tree.ops : Tree → List (Option Tree)
  | .mk _ _ o _ _ _ _ _ => o

/-- DECL_INITIAL of a declaration node. -/
def DECL_INITIAL : Tree → Option Tree
  | .mk _ _ _ d _ _ _ _ => d

/-- The statement sequence of a `STATEMENT_LIST` node, in order (the
`tsi_start` / `tsi_next` iteration of the plugin). -/
def Tree.stmts : Tree → List Tree
  | .mk _ _ _ _ s _ _ _ => s

/-- EXPR_LOCATION of a node; 0 models `UNKNOWN_LOCATION`. -/
def EXPR_LOCATION : Tree → Nat
  | .mk _ _ _ _ _ l _ _ => l

/-- DECL_SOURCE_LOCATION of a declaration node. -/
def DECL_SOURCE_LOCATION : Tree → Nat
  | .mk _ _ _ _ _ _ l _ => l

/-- The numeric payload of a constant node (for example the value of an
INTEGER_CST). The plugin never reads it. -/
def Tree.cstValue : Tree → Int
  | .mk _ _ _ _ _ _ _ v => v

/-- TREE_OPERAND: the i-th operand; out-of-range access is modelled as
null. -/
def TREE_OPERAND (t : Tree) (i : Nat) : Option Tree :=
  t.ops.getD i none

/-- TREE_OPERAND_LENGTH: the number of operand slots. -/
def TREE_OPERAND_LENGTH (t : Tree) : Nat :=
  t.ops.length

/-- UNKNOWN_LOCATION is the zero location. -/
def UNKNOWN_LOCATION : Nat := 0

/-- The global `input_location` fallback, modelled as a fixed distinguished
location. -/
def input_location : Nat := 1

/-- CALL_EXPR_FN: operand 1 of a CALL_EXPR. -/
def CALL_EXPR_FN (t : Tree) : Option Tree :=
  TREE_OPERAND t 1

/-- The supplied arguments of a CALL_EXPR, operands 3 onward (the
`FOR_EACH_CALL_EXPR_ARG` iteration). -/
def CALL_EXPR_ARGS (t : Tree) : List (Option Tree) :=
  t.ops.drop 3

/-- BIND_EXPR_VARS: operand 0 of a BIND_EXPR. -/
def BIND_EXPR_VARS (t : Tree) : Option Tree := TREE_OPERAND t 0

/-- BIND_EXPR_BODY: operand 1 of a BIND_EXPR. -/
def BIND_EXPR_BODY (t : Tree) : Option Tree := TREE_OPERAND t 1

/-- EXPR_STMT_EXPR: operand 0 of an EXPR_STMT. -/
def EXPR_STMT_EXPR (t : Tree) : Option Tree := TREE_OPERAND t 0

/-- IF_COND: operand 0 of an IF_STMT. -/
def IF_COND (t : Tree) : Option Tree := TREE_OPERAND t 0

/-- THEN_CLAUSE: operand 1 of an IF_STMT. -/
def THEN_CLAUSE (t : Tree) : Option Tree := TREE_OPERAND t 1

/-- ELSE_CLAUSE: operand 2 of an IF_STMT. -/
def ELSE_CLAUSE (t : Tree) : Option Tree := TREE_OPERAND t 2

/-- FOR_INIT_STMT: operand 0 of a FOR_STMT. -/
def FOR_INIT_STMT (t : Tree) : Option Tree := TREE_OPERAND t 0

/-- FOR_COND: operand 1 of a FOR_STMT. -/
def FOR_COND (t : Tree) : Option Tree := TREE_OPERAND t 1

/-- FOR_EXPR: operand 2 of a FOR_STMT. -/
def FOR_EXPR (t : Tree) : Option Tree := TREE_OPERAND t 2

/-- FOR_BODY: operand 3 of a FOR_STMT. -/
def FOR_BODY (t : Tree) : Option Tree := TREE_OPERAND t 3

/-- WHILE_COND: operand 0 of a WHILE_STMT. -/
def WHILE_COND (t : Tree) : Option Tree := TREE_OPERAND t 0

/-- WHILE_BODY: operand 1 of a WHILE_STMT. -/
def WHILE_BODY (t : Tree) : Option Tree := TREE_OPERAND t 1

/-- DO_COND: operand 0 of a DO_STMT. -/
def DO_COND (t : Tree) : Option Tree := TREE_OPERAND t 0

/-- DO_BODY: operand 1 of a DO_STMT. -/
def DO_BODY (t : Tree) : Option Tree := TREE_OPERAND t 1

/-- SWITCH_COND: operand 0 of a SWITCH_STMT. -/
def SWITCH_COND (t : Tree) : Option Tree := TREE_OPERAND t 0

/-- SWITCH_BODY: operand 1 of a SWITCH_STMT. -/
def SWITCH_BODY (t : Tree) : Option Tree := TREE_OPERAND t 1

/-- CASE_LOW: operand 0 of a CASE_LABEL_EXPR. -/
def CASE_LOW (t : Tree) : Option Tree := TREE_OPERAND t 0

/-- CASE_HIGH: operand 1 of a CASE_LABEL_EXPR. -/
def CASE_HIGH (t : Tree) : Option Tree := TREE_OPERAND t 1

/-- DECL_EXPR_DECL: operand 0 of a DECL_EXPR. -/
def DECL_EXPR_DECL (t : Tree) : Option Tree := TREE_OPERAND t 0

mutual

/-- Structural size of a node, used as the termination measure of the
recursive traversals. -/
def szT : Tree → Nat
  | .mk _ _ ops di ss _ _ _ => 1 + szLO ops + szO di + szL ss

/-- Structural size of an operand vector. -/
def szLO : List (Option Tree) → Nat
  | [] => 0
  | o :: r => szO o + szLO r

/-- Structural size of a possibly-null node. -/
def szO : Option Tree → Nat
  | none => 0
  | some t => 1 + szT t

/-- Structural size of a statement list. -/
def szL : List Tree → Nat
  | [] => 0
  | t :: r => 1 + szT t + szL r

end

theorem szO_le_szLO_of_mem {l : List (Option Tree)} {o : Option Tree}
    (h : o ∈ l) : szO o ≤ szLO l := by
  induction l with
  | nil => cases h
  | cons a r ih =>
    rcases List.mem_cons.mp h with rfl | h'
    · simp only [szLO]; omega
    · have := ih h'; simp only [szLO]; omega

theorem szT_le_szL_of_mem {l : List Tree} {s : Tree}
    (h : s ∈ l) : 1 + szT s ≤ szL l := by
  induction l with
  | nil => cases h
  | cons a r ih =>
    rcases List.mem_cons.mp h with rfl | h'
    · simp only [szL]; omega
    · have := ih h'; simp only [szL]; omega

theorem szT_pos (t : Tree) : 0 < szT t := by
  rcases t with ⟨c, ty, ops, di, ss, l1, l2, v⟩
  simp only [szT]; omega

theorem szO_mem_ops {t : Tree} {o : Option Tree} (h : o ∈ t.ops) :
    szO o < szT t := by
  rcases t with ⟨c, ty, ops, di, ss, l1, l2, v⟩
  have := szO_le_szLO_of_mem h
  simp only [Tree.ops] at this
  simp only [szT]; omega

theorem szO_TREE_OPERAND_lt (t : Tree) (i : Nat) :
    szO (TREE_OPERAND t i) < szT t := by
  rcases h : TREE_OPERAND t i with _ | u
  · have := szT_pos t
    simp only [szO]; omega
  · apply szO_mem_ops (t := t)
    unfold TREE_OPERAND at h
    rcases Nat.lt_or_ge i t.ops.length with hi | hi
    · rw [List.getD_eq_getElem _ _ hi] at h
      exact h ▸ List.getElem_mem hi
    · rw [List.getD_eq_default _ _ hi] at h
      cases h

theorem szO_DECL_INITIAL_lt (t : Tree) : szO (DECL_INITIAL t) < szT t := by
  rcases t with ⟨c, ty, ops, di, ss, l1, l2, v⟩
  simp only [DECL_INITIAL, szT]; omega

theorem szO_some_mem_stmts {t : Tree} {s : Tree} (h : s ∈ t.stmts) :
    szO (some s) < szT t := by
  rcases t with ⟨c, ty, ops, di, ss, l1, l2, v⟩
  have := szT_le_szL_of_mem h
  simp only [Tree.stmts] at this
  simp only [szO, szT]; omega

theorem szO_TREE_OPERAND_lt_some (t : Tree) (i : Nat) :
    szO (TREE_OPERAND t i) < szO (some t) := by
  have := szO_TREE_OPERAND_lt t i
  simp only [szO]; omega

/-- The codes peeled by the while loop of `get_original_type` (plugin lines
86-91): NOP_EXPR, CONVERT_EXPR, VIEW_CONVERT_EXPR, FLOAT_EXPR and
FIX_TRUNC_EXPR. -/
def is_conversion_wrapper (c : TreeCode) : Bool :=
  match c with
  | .NOP_EXPR | .CONVERT_EXPR | .VIEW_CONVERT_EXPR
  | .FLOAT_EXPR | .FIX_TRUNC_EXPR => true
  | _ => false

/-- The peeling loop of `get_original_type` (plugin lines 86-94): while the
current expression is non-null and a conversion wrapper, descend into its
operand 0. Returns the final value of the loop variable. -/
def peel_conversions (e : Option Tree) : Option Tree :=
  match e with
  | none => none
  | some t =>
    if is_conversion_wrapper t.code then peel_conversions (TREE_OPERAND t 0)
    else some t
termination_by szO e
decreasing_by
  exact szO_TREE_OPERAND_lt_some _ 0

/-- Whether a code is INIT_EXPR (the first test of `get_original_type`). -/
def is_init_expr_code (c : TreeCode) : Bool :=
  match c with
  | .INIT_EXPR => true
  | _ => false

/-- Translation of `get_original_type` (plugin lines 73-99): null gives a
null type; an INIT_EXPR is first replaced by its operand 1; the peeling loop
then runs, and the result is the TREE_TYPE of the final node, falling back
to the TREE_TYPE of the original expression if the loop ended on null. -/
def get_original_type (expr : Option Tree) : Option GTyp :=
  match expr with
  | none => none
  | some e =>
    let current_expr : Option Tree :=
      if is_init_expr_code e.code then TREE_OPERAND e 1 else some e
    match peel_conversions current_expr with
    | some final => TREE_TYPE final
    | none => TREE_TYPE e

/-- A diagnostic handed to the external sink by `warning_at` (plugin lines
136-137): location, printable source and destination type names, and the
context label. -/
structure Diagnostic where
  loc : Nat
  fromName : String
  toName : String
  context : String
deriving DecidableEq

/-- The classification block of `check_narrowing_conversion` (plugin lines
113-134) on two non-null types: both must be numeric, and then the pair
must match one of the three patterns (same-kind 64-to-32 narrowing,
64-bit-integer to 32-bit-float, 64-bit-float to 32-bit-integer), computed
from the main variants' codes and the types' own precisions. -/
def narrowing_patterns_match (to_type from_type : GTyp) : Bool :=
  if is_numeric_type (some to_type) && is_numeric_type (some from_type) then
    let from_type_main := TYPE_MAIN_VARIANT from_type
    let to_type_main := TYPE_MAIN_VARIANT to_type
    let from_code := from_type_main.code
    let to_code := to_type_main.code
    let from_precision := TYPE_PRECISION from_type
    let to_precision := TYPE_PRECISION to_type
    let standard_narrowing :=
      from_precision == 64 && to_precision == 32 && from_code == to_code
    let int64_to_float :=
      from_code == TypeCode.INTEGER_TYPE && from_precision == 64 &&
      to_code == TypeCode.REAL_TYPE && to_precision == 32
    let double_to_int32 :=
      from_code == TypeCode.REAL_TYPE && from_precision == 64 &&
      to_code == TypeCode.INTEGER_TYPE && to_precision == 32
    standard_narrowing || int64_to_float || double_to_int32
  else
    false

/-- Translation of `check_narrowing_conversion` (plugin lines 102-140):
compute the origin type of the source expression; return silently when
either type is null or the error marker; otherwise emit one diagnostic
exactly when the classification block fires. The emitted diagnostic carries
the location, both printable type names and the context label. -/
def check_narrowing_conversion (loc : Nat) (to_type : Option GTyp)
    (from_expr : Option Tree) (context : String) : List Diagnostic :=
  let from_type := get_original_type from_expr
  match to_type, from_type with
  | some tt, some ft =>
    if is_error_mark tt || is_error_mark ft then []
    else if narrowing_patterns_match tt ft then
      [⟨loc, get_type_name (some ft), get_type_name (some tt), context⟩]
    else []
  | _, _ => []

/-- Whether a code is FUNCTION_DECL (the first test of the unwrapping loop
in `get_fndecl_from_callee_expr`). -/
def is_function_decl_code (c : TreeCode) : Bool :=
  match c with
  | .FUNCTION_DECL => true
  | _ => false

/-- The codes `get_fndecl_from_callee_expr` peels through: ADDR_EXPR,
NOP_EXPR and CONVERT_EXPR. -/
def is_callee_unwrap_code (c : TreeCode) : Bool :=
  match c with
  | .ADDR_EXPR | .NOP_EXPR | .CONVERT_EXPR => true
  | _ => false

/-- Translation of `get_fndecl_from_callee_expr` (plugin lines 143-162):
peel ADDR_EXPR, NOP_EXPR and CONVERT_EXPR layers until a FUNCTION_DECL is
found; any other node (or null) resolves to null. -/
def get_fndecl_from_callee_expr (callee : Option Tree) : Option Tree :=
  match callee with
  | none => none
  | some c =>
    if is_function_decl_code c.code then some c
    else if is_callee_unwrap_code c.code then
      get_fndecl_from_callee_expr (TREE_OPERAND c 0)
    else none
termination_by szO callee
decreasing_by
  exact szO_TREE_OPERAND_lt_some _ 0

/-- Whether a parameter-chain entry is the `void_type_node` terminator
(plugin line 214; a null entry is not the terminator). -/
def is_void_terminator (pt : Option GTyp) : Bool :=
  match pt with
  | some p => is_void_type_node p
  | none => false

/-- The `FOR_EACH_CALL_EXPR_ARG` loop of the CALL_EXPR checkpoint (plugin
lines 209-225): walk the supplied arguments in order; before each argument,
stop if the parameter chain is exhausted or reaches the void terminator;
check the pair when both the parameter type and the argument are non-null;
then advance the parameter chain. -/
def check_call_args (loc : Nat) (arg_types : List (Option GTyp))
    (args : List (Option Tree)) : List Diagnostic :=
  match args with
  | [] => []
  | arg :: rest =>
    match arg_types with
    | [] => []
    | param_type :: chain =>
      if is_void_terminator param_type then []
      else
        (match param_type, arg with
         | some pt, some a =>
           check_narrowing_conversion loc (some pt) (some a) "function argument"
         | _, _ => []) ++
        check_call_args loc chain rest

/-- The state threaded through the traversal (plugin lines 41-43). -/
structure walk_data where
  function_return_type : Option GTyp

/-- The checkpoint switch of `traverse_and_check_ast` (plugin lines
171-237), evaluated at a node before descending into its children: VAR_DECL
with an initializer, MODIFY_EXPR, CALL_EXPR with a resolvable callee, and
RETURN_EXPR with a value each run a narrowing check; every other code
checks nothing. -/
def check_current_node (node : Tree) (data : walk_data) : List Diagnostic :=
  let loc := if EXPR_LOCATION node == UNKNOWN_LOCATION then input_location
             else EXPR_LOCATION node
  match node.code with
  | .VAR_DECL =>
    match DECL_INITIAL node with
    | some initializer =>
      check_narrowing_conversion (DECL_SOURCE_LOCATION node) (TREE_TYPE node)
        (some initializer) "variable initialization"
    | none => []
  | .MODIFY_EXPR =>
    let lhs := TREE_OPERAND node 0
    let rhs := TREE_OPERAND node 1
    check_narrowing_conversion loc
      (match lhs with | some l => TREE_TYPE l | none => none) rhs "assignment"
  | .CALL_EXPR =>
    match get_fndecl_from_callee_expr (CALL_EXPR_FN node) with
    | none => []
    | some fn_decl =>
      let fntype := TREE_TYPE fn_decl
      let arg_types := match fntype with
        | some ft => TYPE_ARG_TYPES ft
        | none => []
      check_call_args loc arg_types (CALL_EXPR_ARGS node)
  | .RETURN_EXPR =>
    match TREE_OPERAND node 0 with
    | some retval =>
      check_narrowing_conversion loc data.function_return_type (some retval)
        "return value"
    | none => []
  | _ => []

/-- The descent switch of `traverse_and_check_ast` (plugin lines 240-327)
as the ordered list of children the walker recurses into (a null entry is
the no-op recursive call on a null tree): the expression group loops over
all operands; the statement forms visit their fixed parts in the source's
order; declarations visit their initializer; everything else is an
expression-class generic descent or a leaf. -/
def walk_children (node : Tree) : List (Option Tree) :=
  match node.code with
  | .PLUS_EXPR | .MINUS_EXPR | .MULT_EXPR | .TRUNC_DIV_EXPR
  | .CEIL_DIV_EXPR | .FLOOR_DIV_EXPR | .ROUND_DIV_EXPR
  | .TRUNC_MOD_EXPR | .CEIL_MOD_EXPR | .FLOOR_MOD_EXPR | .ROUND_MOD_EXPR
  | .RDIV_EXPR | .EXACT_DIV_EXPR | .ADDR_EXPR | .FDESC_EXPR
  | .BIT_IOR_EXPR | .BIT_XOR_EXPR | .BIT_AND_EXPR | .BIT_NOT_EXPR
  | .TRUTH_ANDIF_EXPR | .TRUTH_ORIF_EXPR | .TRUTH_AND_EXPR
  | .TRUTH_OR_EXPR | .TRUTH_XOR_EXPR | .TRUTH_NOT_EXPR | .LT_EXPR
  | .LE_EXPR | .GT_EXPR | .GE_EXPR | .EQ_EXPR | .NE_EXPR
  | .UNORDERED_EXPR | .ORDERED_EXPR | .UNLT_EXPR | .UNLE_EXPR
  | .UNGT_EXPR | .UNGE_EXPR | .UNEQ_EXPR | .LTGT_EXPR
  | .INDIRECT_REF | .COMPOUND_EXPR | .MODIFY_EXPR | .INIT_EXPR
  | .TARGET_EXPR | .COND_EXPR | .VEC_COND_EXPR | .VEC_PERM_EXPR
  | .CALL_EXPR | .WITH_CLEANUP_EXPR | .CLEANUP_POINT_EXPR
  | .CONSTRUCTOR | .COMPOUND_LITERAL_EXPR | .SAVE_EXPR
  | .REALIGN_LOAD_EXPR | .CONVERT_EXPR | .NOP_EXPR | .VIEW_CONVERT_EXPR
  | .NON_LVALUE_EXPR | .ABS_EXPR
  | .LSHIFT_EXPR | .RSHIFT_EXPR | .LROTATE_EXPR | .RROTATE_EXPR
  | .FLOAT_EXPR | .FIX_TRUNC_EXPR => node.ops
  | .BIND_EXPR => [BIND_EXPR_VARS node, BIND_EXPR_BODY node]
  | .STATEMENT_LIST => node.stmts.map some
  | .EXPR_STMT => [EXPR_STMT_EXPR node]
  | .IF_STMT => [IF_COND node, THEN_CLAUSE node, ELSE_CLAUSE node]
  | .FOR_STMT => [FOR_INIT_STMT node, FOR_COND node, FOR_EXPR node, FOR_BODY node]
  | .WHILE_STMT => [WHILE_COND node, WHILE_BODY node]
  | .DO_STMT => [DO_BODY node, DO_COND node]
  | .SWITCH_STMT => [SWITCH_COND node, SWITCH_BODY node]
  | .CASE_LABEL_EXPR => [CASE_LOW node, CASE_HIGH node]
  | .DECL_EXPR => [DECL_EXPR_DECL node]
  | .VAR_DECL | .PARM_DECL | .FIELD_DECL => [DECL_INITIAL node]
  | c =>
    if TREE_CODE_CLASS c == TCC.tcc_expression then node.ops
    else []

set_option maxHeartbeats 3200000 in
theorem szO_mem_walk_children {t : Tree} {o : Option Tree}
    (h : o ∈ walk_children t) : szO o < szT t := by
  unfold walk_children at h
  split at h
  all_goals
    first
    | exact szO_mem_ops h
    | (split at h
       · exact szO_mem_ops h
       · cases h)
    | (simp only [List.mem_map] at h
       obtain ⟨s, hs, rfl⟩ := h
       exact szO_some_mem_stmts hs)
    | (simp only [List.mem_cons, List.not_mem_nil, or_false] at h
       (first
         | (rcases h with rfl | rfl | rfl | rfl)
         | (rcases h with rfl | rfl | rfl)
         | (rcases h with rfl | rfl)
         | (rcases h with rfl))
       all_goals
         first
         | exact szO_TREE_OPERAND_lt t 0
         | exact szO_TREE_OPERAND_lt t 1
         | exact szO_TREE_OPERAND_lt t 2
         | exact szO_TREE_OPERAND_lt t 3
         | exact szO_DECL_INITIAL_lt t)

theorem szO_getD_walk_children_lt (t : Tree) (i : Nat) :
    szO ((walk_children t).getD i none) < szT t := by
  rcases h : (walk_children t).getD i none with _ | u
  · have := szT_pos t
    simp only [szO]; omega
  · apply szO_mem_walk_children (t := t)
    rcases Nat.lt_or_ge i (walk_children t).length with hi | hi
    · rw [List.getD_eq_getElem _ _ hi] at h
      exact h ▸ List.getElem_mem hi
    · rw [List.getD_eq_default _ _ hi] at h
      cases h

theorem szO_mem_walk_children_some {t : Tree} {o : Option Tree}
    (h : o ∈ walk_children t) : szO o < szO (some t) := by
  have := szO_mem_walk_children h
  simp only [szO]; omega

theorem szO_getD_walk_children_lt_some (t : Tree) (i : Nat) :
    szO ((walk_children t).getD i none) < szO (some t) := by
  have := szO_getD_walk_children_lt t i
  simp only [szO]; omega

/-- Translation of `traverse_and_check_ast` (plugin lines 166-328): a null
node is a no-op; otherwise the checkpoint switch runs on the node first and
the walker then recurses into the node's children in order. -/
def traverse_and_check_ast (node : Option Tree) (data : walk_data) :
    List Diagnostic :=
  match node with
  | none => []
  | some t =>
    check_current_node t data ++
      (walk_children t).attach.flatMap
        (fun c => traverse_and_check_ast c.1 data)
termination_by szO node
decreasing_by
  exact szO_mem_walk_children_some c.2

theorem flatMap_attach_eq {α β : Type} (l : List α) (f : α → List β) :
    l.attach.flatMap (fun x => f x.1) = l.flatMap f := by
  induction l with
  | nil => rfl
  | cons a l ih =>
    simp only [List.attach_cons, List.flatMap_cons, List.flatMap_map]
    exact congrArg _ ih

theorem traverse_none (data : walk_data) :
    traverse_and_check_ast none data = [] := by
  rw [traverse_and_check_ast.eq_def]

theorem traverse_some (t : Tree) (data : walk_data) :
    traverse_and_check_ast (some t) data =
      check_current_node t data ++
        (walk_children t).flatMap (fun c => traverse_and_check_ast c data) := by
  rw [traverse_and_check_ast.eq_def]
  show check_current_node t data ++
      (walk_children t).attach.flatMap
        (fun c => traverse_and_check_ast c.1 data) = _
  exact congrArg _
    (flatMap_attach_eq (walk_children t) (fun c => traverse_and_check_ast c data))

/-- The paths along which the walker recursively invokes itself: the empty
path is the visit of the node itself, and path `i :: p` is a visit of path
`p` inside the i-th entry of the node's child list. A null child
contributes no visits. -/
def visited_paths (node : Option Tree) : List (List Nat) :=
  match node with
  | none => []
  | some t =>
    [] :: (List.range (walk_children t).length).attach.flatMap
      (fun i =>
        (visited_paths ((walk_children t).getD i.1 none)).map
          (fun p => i.1 :: p))
termination_by szO node
decreasing_by
  exact szO_getD_walk_children_lt_some _ i.1

theorem visited_paths_none : visited_paths none = [] := by
  rw [visited_paths.eq_def]

theorem visited_paths_some (t : Tree) :
    visited_paths (some t) =
      [] :: (List.range (walk_children t).length).flatMap
        (fun i =>
          (visited_paths ((walk_children t).getD i none)).map
            (fun p => i :: p)) := by
  rw [visited_paths.eq_def]
  show ([] : List Nat) :: (List.range (walk_children t).length).attach.flatMap
      (fun i =>
        (visited_paths ((walk_children t).getD i.1 none)).map
          (fun p => i.1 :: p)) = _
  exact congrArg _
    (flatMap_attach_eq (List.range (walk_children t).length)
      (fun i => (visited_paths ((walk_children t).getD i none)).map
        (fun p => i :: p)))

/-- The node reached from a root by following walker child indices: step
`i` moves to the i-th entry of the current node's child list (null when the
index is out of range or the entry is null). -/
def node_at_path (node : Option Tree) (p : List Nat) : Option Tree :=
  match p with
  | [] => node
  | i :: rest =>
    match node with
    | none => none
    | some t => node_at_path ((walk_children t).getD i none) rest

/-- The checkpoint diagnostics of the node reached by a walker path (empty
when the path reaches no node). -/
def check_at_path (root : Option Tree) (p : List Nat) (data : walk_data) :
    List Diagnostic :=
  match node_at_path root p with
  | some n => check_current_node n data
  | none => []

mutual

/-- A copy of a node in which the numeric payload of every constant node is
replaced by 0, all static structure and all types unchanged. Two trees are
identical except for the values of their numeric literals exactly when they
have the same erasure. -/
def erase_values : Tree → Tree
  | .mk c ty ops di ss l1 l2 _ =>
    .mk c ty (erase_values_ops ops) (erase_values_opt di)
      (erase_values_stmts ss) l1 l2 0

/-- Value erasure over an operand vector. -/
def erase_values_ops : List (Option Tree) → List (Option Tree)
  | [] => []
  | o :: r => erase_values_opt o :: erase_values_ops r

/-- Value erasure over a possibly-null node. -/
def erase_values_opt : Option Tree → Option Tree
  | none => none
  | some t => some (erase_values t)

/-- Value erasure over a statement list. -/
def erase_values_stmts : List Tree → List Tree
  | [] => []
  | t :: r => erase_values t :: erase_values_stmts r

end

/-- A stack of pure conversion wrappers applied to an expression: each layer
is a wrapper node (its code and its recorded destination type) whose single
operand is the next layer down. -/
def wrap_in_conversions : List (TreeCode × Option GTyp) → Tree → Tree
  | [], e => e
  | (w, ty) :: ws, e =>
    .mk w ty [some (wrap_in_conversions ws e)] none [] 0 0 0

/-- Numeric kind of a type as the specification's classifier table uses it:
integer, floating, or other, read off the type's principal (main-variant)
code. Written from the specification's words for comparison with the
code-derived classifier. -/
inductive NumKind where
  | integerKind
  | floatingKind
  | otherKind
deriving DecidableEq

/-- The specification's kind of a type (integer vs floating vs other). -/
def spec_kind (t : GTyp) : NumKind :=
  match (TYPE_MAIN_VARIANT t).code with
  | .INTEGER_TYPE => .integerKind
  | .REAL_TYPE => .floatingKind
  | _ => .otherKind

/-- The three lossy patterns of the specification's classifier table,
written from the specification's words: same-kind narrowing with source
width 64 and destination width 32, 64-bit integer to 32-bit floating, and
64-bit floating to 32-bit integer; every other pair (widening, same width,
other widths, any non-numeric side) is not narrowing. -/
def spec_is_narrowing (from_t to_t : GTyp) : Prop :=
  (spec_kind from_t = spec_kind to_t ∧ spec_kind from_t ≠ NumKind.otherKind ∧
     TYPE_PRECISION from_t = 64 ∧ TYPE_PRECISION to_t = 32) ∨
  (spec_kind from_t = NumKind.integerKind ∧ TYPE_PRECISION from_t = 64 ∧
     spec_kind to_t = NumKind.floatingKind ∧ TYPE_PRECISION to_t = 32) ∨
  (spec_kind from_t = NumKind.floatingKind ∧ TYPE_PRECISION from_t = 64 ∧
     spec_kind to_t = NumKind.integerKind ∧ TYPE_PRECISION to_t = 32)

/-- Test fixture: a 64-bit integer type. -/
def ty_i64 : GTyp := ⟨.INTEGER_TYPE, 64, none, [], some (.IDENTIFIER_NODE "int64")⟩

/-- Test fixture: a 32-bit integer type. -/
def ty_i32 : GTyp := ⟨.INTEGER_TYPE, 32, none, [], some (.IDENTIFIER_NODE "int32")⟩

/-- Test fixture: a 64-bit floating type. -/
def ty_f64 : GTyp := ⟨.REAL_TYPE, 64, none, [], some (.IDENTIFIER_NODE "double")⟩

/-- Test fixture: a 32-bit floating type. -/
def ty_f32 : GTyp := ⟨.REAL_TYPE, 32, none, [], some (.IDENTIFIER_NODE "float")⟩

/-- Test fixture: the void type. -/
def ty_void : GTyp := ⟨.VOID_TYPE, 0, none, [], none⟩

/-- Test fixture: a variable-reference leaf of a given type (a VAR_DECL
with no initializer). -/
def leaf_var (ty : GTyp) : Tree := ⟨.VAR_DECL, some ty, [], none, [], 0, 0, 0⟩

/-- Test fixture: an integer literal of a given type and value. -/
def int_cst (ty : GTyp) (v : Int) : Tree :=
  ⟨.UNKNOWN_CODE .tcc_constant 0, some ty, [], none, [], 0, 0, v⟩

/-- Test fixture: a variable declaration with an initializer. The
destination type is the declared type, the source the initializer. -/
def decl_with_init (declTy : GTyp) (init : Tree) : Tree :=
  ⟨.VAR_DECL, some declTy, [], some init, [], 0, 5, 0⟩

/-- Test fixture: an assignment of `rhs` to a target of type `lhsTy`. -/
def assign_node (lhsTy : GTyp) (rhs : Tree) : Tree :=
  ⟨.MODIFY_EXPR, some lhsTy, [some (leaf_var lhsTy), some rhs], none, [], 3, 0, 0⟩

/-- Test fixture: a function type with the given fixed parameter types
(terminated by the void marker, as a prototyped non-variadic function). -/
def fn_type (params : List GTyp) : GTyp :=
  ⟨.FUNCTION_TYPE, 0, none, params.map some ++ [some ty_void], none⟩

/-- Test fixture: a declared function with the given parameter types. -/
def fn_decl_node (params : List GTyp) : Tree :=
  ⟨.FUNCTION_DECL, some (fn_type params), [], none, [], 0, 0, 0⟩

/-- Test fixture: a call to a declared function with the given arguments
(operand 0 is the argument count slot and operand 2 the static chain slot,
both unused by the walker; the callee is operand 1). -/
def call_node (fd : Tree) (args : List Tree) : Tree :=
  ⟨.CALL_EXPR, none, [none, some fd, none] ++ args.map some, none, [], 7, 0, 0⟩

/-- Test fixture: a return statement returning the given expression. -/
def return_node (value : Tree) : Tree :=
  ⟨.RETURN_EXPR, none, [some value], none, [], 9, 0, 0⟩


theorem peel_conversions_unfold (e : Option Tree) :
    peel_conversions e =
      match e with
      | none => none
      | some t =>
        if is_conversion_wrapper t.code then peel_conversions (TREE_OPERAND t 0)
        else some t := by
  rw [peel_conversions.eq_def]

theorem get_fndecl_unfold (callee : Option Tree) :
    get_fndecl_from_callee_expr callee =
      match callee with
      | none => none
      | some c =>
        if is_function_decl_code c.code then some c
        else if is_callee_unwrap_code c.code then
          get_fndecl_from_callee_expr (TREE_OPERAND c 0)
        else none := by
  rw [get_fndecl_from_callee_expr.eq_def]

/-- C2: for every pair of non-null, non-error types, the classification
block returns true exactly when the pair matches one of the three
kind-and-width patterns of the specification's table, and false for every
other pair. -/
theorem classifier_true_iff_three_patterns (from_t to_t : GTyp)
    (hf : is_error_mark from_t = false) (ht : is_error_mark to_t = false) :
    narrowing_patterns_match to_t from_t = true ↔ spec_is_narrowing from_t to_t := by
  clear hf ht
  unfold narrowing_patterns_match spec_is_narrowing spec_kind is_numeric_type
  rcases hX : (TYPE_MAIN_VARIANT from_t).code with _ | _ | _ | _ | _ | k <;>
    rcases hY : (TYPE_MAIN_VARIANT to_t).code with _ | _ | _ | _ | _ | k' <;>
      simp [hX, hY]

theorem classifier_true_iff_three_patterns_witness :
    is_error_mark ty_i64 = false ∧ is_error_mark ty_i32 = false ∧
    (narrowing_patterns_match ty_i32 ty_i64 = true ↔ spec_is_narrowing ty_i64 ty_i32) :=
  ⟨rfl, rfl, classifier_true_iff_three_patterns ty_i64 ty_i32 rfl rfl⟩

/-- C7: a null or error destination or origin type makes the narrowing
check return silently with no diagnostic. -/
theorem indeterminate_type_skips_silently (loc : Nat) (to_type : Option GTyp)
    (from_expr : Option Tree) (context : String)
    (h : to_type = none ∨ get_original_type from_expr = none ∨
         (∃ tt, to_type = some tt ∧ is_error_mark tt = true) ∨
         (∃ ft, get_original_type from_expr = some ft ∧ is_error_mark ft = true)) :
    check_narrowing_conversion loc to_type from_expr context = [] := by
  unfold check_narrowing_conversion
  rcases h with rfl | h0 | ⟨tt, rfl, htt⟩ | ⟨ft, hft, hf⟩
  · rfl
  · rw [h0]
    rcases to_type with _ | tt <;> rfl
  · rcases hg : get_original_type from_expr with _ | ft
    · rfl
    · simp [htt]
  · rw [hft]
    rcases to_type with _ | tt
    · rfl
    · simp [hf]

theorem indeterminate_type_skips_silently_witness :
    check_narrowing_conversion 0 none none "assignment" = [] :=
  indeterminate_type_skips_silently 0 none none "assignment" (Or.inl rfl)

/-- C10: the classification block is invariant under replacing either type
by a variant with the same main variant and the same bit width. -/
theorem classifier_invariant_under_type_variants (ft ft' tt tt' : GTyp)
    (hfm : TYPE_MAIN_VARIANT ft = TYPE_MAIN_VARIANT ft')
    (hfp : TYPE_PRECISION ft = TYPE_PRECISION ft')
    (htm : TYPE_MAIN_VARIANT tt = TYPE_MAIN_VARIANT tt')
    (htp : TYPE_PRECISION tt = TYPE_PRECISION tt') :
    narrowing_patterns_match tt ft = narrowing_patterns_match tt' ft' := by
  have hnum : forall u : GTyp, is_numeric_type (some u) =
      ((TYPE_MAIN_VARIANT u).code == TypeCode.INTEGER_TYPE ||
       (TYPE_MAIN_VARIANT u).code == TypeCode.REAL_TYPE) := fun u => rfl
  unfold narrowing_patterns_match
  simp only [hnum, hfm, hfp, htm, htp]

def ty_i64_variant : GTyp := ⟨.INTEGER_TYPE, 64, some ty_i64, [], none⟩

theorem classifier_invariant_under_type_variants_witness :
    narrowing_patterns_match ty_i32 ty_i64_variant = narrowing_patterns_match ty_i32 ty_i64 :=
  classifier_invariant_under_type_variants ty_i64_variant ty_i64 ty_i32 ty_i32
    rfl rfl rfl rfl

/-- C9: a RETURN_EXPR is a traversal leaf: it has no walker children, its
code class is not expression-like, and walking it performs exactly the
top-level return-value check and nothing else. -/
theorem return_subtree_never_traversed (t : Tree) (data : walk_data)
    (hcode : t.code = TreeCode.RETURN_EXPR) :
    walk_children t = [] ∧
    TREE_CODE_CLASS t.code ≠ TCC.tcc_expression ∧
    traverse_and_check_ast (some t) data =
      (match TREE_OPERAND t 0 with
       | some retval =>
         check_narrowing_conversion
           (if EXPR_LOCATION t == UNKNOWN_LOCATION then input_location
            else EXPR_LOCATION t)
           data.function_return_type (some retval) "return value"
       | none => []) := by
  have hwc : walk_children t = [] := by
    unfold walk_children
    rw [hcode]
    rfl
  refine ⟨hwc, ?_, ?_⟩
  · rw [hcode]
    simp [TREE_CODE_CLASS]
  · rw [traverse_some, hwc]
    unfold check_current_node
    rw [hcode]
    simp

theorem return_subtree_never_traversed_witness :
    (return_node (leaf_var ty_i64)).code = TreeCode.RETURN_EXPR ∧
    walk_children (return_node (leaf_var ty_i64)) = [] :=
  ⟨rfl, (return_subtree_never_traversed (return_node (leaf_var ty_i64))
    ⟨some ty_i32⟩ rfl).1⟩

/-- C6: a call whose callee does not resolve to a FUNCTION_DECL contributes
no diagnostics at the call checkpoint, regardless of the arguments. -/
theorem unresolved_callee_emits_no_diagnostics (t : Tree) (data : walk_data)
    (hcode : t.code = TreeCode.CALL_EXPR)
    (hun : get_fndecl_from_callee_expr (CALL_EXPR_FN t) = none) :
    check_current_node t data = [] := by
  unfold check_current_node
  rw [hcode]
  simp [hun]

def unresolved_call_fixture : Tree :=
  call_node (leaf_var ty_i32) [leaf_var ty_i64]

theorem unresolved_callee_emits_no_diagnostics_witness :
    check_current_node unresolved_call_fixture ⟨none⟩ = [] :=
  unresolved_callee_emits_no_diagnostics unresolved_call_fixture ⟨none⟩ rfl
    (by
      rw [get_fndecl_unfold]
      rfl)


theorem check_call_args_eq_zip (loc : Nat) (arg_types : List (Option GTyp))
    (args : List (Option Tree)) :
    check_call_args loc arg_types args =
      ((arg_types.takeWhile (fun pt => !is_void_terminator pt)).zip args).flatMap
        (fun pa =>
          match pa.1, pa.2 with
          | some pt, some a =>
            check_narrowing_conversion loc (some pt) (some a) "function argument"
          | _, _ => []) := by
  induction args generalizing arg_types with
  | nil =>
    cases arg_types <;> simp [check_call_args]
  | cons a rest ih =>
    cases arg_types with
    | nil => simp [check_call_args]
    | cons pt pts =>
      by_cases hv : is_void_terminator pt = true
      · simp [check_call_args, hv, List.takeWhile_cons]
      · simp only [Bool.not_eq_true] at hv
        simp [check_call_args, hv, List.takeWhile_cons, ih]

/-- C5: at a call with a resolved callee, the walker's checkpoint
diagnostics are exactly the pairwise checks of the declared parameter types
(truncated at the void terminator) zipped in order with the supplied
arguments; zipping stops at the shorter list, so a call with fewer
arguments than parameters checks only the supplied arguments. -/
theorem call_checks_pair_params_and_args_in_order (t : Tree) (data : walk_data)
    (fd : Tree) (hcode : t.code = TreeCode.CALL_EXPR)
    (hfd : get_fndecl_from_callee_expr (CALL_EXPR_FN t) = some fd) :
    check_current_node t data =
      (((match TREE_TYPE fd with
         | some ft => TYPE_ARG_TYPES ft
         | none => []).takeWhile (fun pt => !is_void_terminator pt)).zip
            (CALL_EXPR_ARGS t)).flatMap
        (fun pa =>
          match pa.1, pa.2 with
          | some pt, some a =>
            check_narrowing_conversion
              (if EXPR_LOCATION t == UNKNOWN_LOCATION then input_location
               else EXPR_LOCATION t) (some pt) (some a) "function argument"
          | _, _ => []) ∧
    (((match TREE_TYPE fd with
       | some ft => TYPE_ARG_TYPES ft
       | none => []).takeWhile (fun pt => !is_void_terminator pt)).zip
          (CALL_EXPR_ARGS t)).length ≤ (CALL_EXPR_ARGS t).length := by
  constructor
  · unfold check_current_node
    rw [hcode]
    simp only [hfd, check_call_args_eq_zip]
  · simp [List.length_zip]

theorem call_checks_pair_params_and_args_in_order_witness :
    check_current_node (call_node (fn_decl_node [ty_i32, ty_i32]) [leaf_var ty_i64])
      ⟨none⟩ = [⟨7, "int64", "int32", "function argument"⟩] := by
  rw [(call_checks_pair_params_and_args_in_order
        (call_node (fn_decl_node [ty_i32, ty_i32]) [leaf_var ty_i64]) ⟨none⟩
        (fn_decl_node [ty_i32, ty_i32]) rfl
        (by rw [get_fndecl_unfold]; rfl)).1,
      ← check_call_args_eq_zip]
  simp only [call_node, fn_decl_node, fn_type, leaf_var, TREE_TYPE, TYPE_ARG_TYPES,
    CALL_EXPR_ARGS, Tree.ops, List.map, List.drop, List.append_eq, List.cons_append,
    List.nil_append, EXPR_LOCATION, UNKNOWN_LOCATION, input_location]
  simp [check_call_args, is_void_terminator, is_void_type_node, ty_void, ty_i32, ty_i64,
    GTyp.code, check_narrowing_conversion, get_original_type, peel_conversions_unfold,
    is_conversion_wrapper, is_init_expr_code, Tree.code, leaf_var, is_error_mark,
    narrowing_patterns_match, is_numeric_type, TYPE_MAIN_VARIANT, TYPE_PRECISION,
    get_type_name, TYPE_NAME, TREE_OPERAND]
  rfl

theorem wrapper_not_init {c : TreeCode} (h : is_conversion_wrapper c = true) :
    is_init_expr_code c = false := by
  unfold is_conversion_wrapper at h
  split at h
  all_goals first | rfl | cases h

theorem peel_conversions_wrap (ws : List (TreeCode × Option GTyp)) (e : Tree)
    (hws : ∀ p ∈ ws, is_conversion_wrapper p.1 = true) :
    peel_conversions (some (wrap_in_conversions ws e)) =
      peel_conversions (some e) := by
  induction ws with
  | nil => rfl
  | cons w ws ih =>
    obtain ⟨wc, wty⟩ := w
    have hw : is_conversion_wrapper wc = true := hws (wc, wty) (by simp)
    rw [wrap_in_conversions, peel_conversions_unfold]
    simp only [Tree.code, hw, if_true, TREE_OPERAND, Tree.ops, List.getD]
    exact ih (fun p hp => hws p (by simp [hp]))

/-- C4: wrapping an expression whose code is not INIT_EXPR in any stack of
pure conversion wrappers does not change the computed origin type, which is
always the TREE_TYPE of the innermost non-wrapper node the peeling loop
reaches; in particular any two wrapper stacks over the same innermost node
give the same result. -/
theorem origin_type_invariant_under_wrapper_nesting (e innermost : Tree)
    (ws : List (TreeCode × Option GTyp))
    (hws : ∀ p ∈ ws, is_conversion_wrapper p.1 = true)
    (hinit : is_init_expr_code e.code = false)
    (hpeel : peel_conversions (some e) = some innermost) :
    get_original_type (some (wrap_in_conversions ws e)) = TREE_TYPE innermost := by
  have hcode : is_init_expr_code (wrap_in_conversions ws e).code = false := by
    cases ws with
    | nil => exact hinit
    | cons w ws' =>
      obtain ⟨wc, wty⟩ := w
      have hw : is_conversion_wrapper wc = true := hws (wc, wty) (by simp)
      rw [wrap_in_conversions]
      exact wrapper_not_init hw
  simp only [get_original_type, hcode, Bool.false_eq_true, if_false,
    peel_conversions_wrap ws e hws, hpeel]

theorem origin_type_invariant_under_wrapper_nesting_witness :
    get_original_type
      (some (wrap_in_conversions
        [(TreeCode.NOP_EXPR, some ty_f64), (TreeCode.CONVERT_EXPR, some ty_f32)]
        (leaf_var ty_i64))) = some ty_i64 :=
  origin_type_invariant_under_wrapper_nesting (leaf_var ty_i64) (leaf_var ty_i64)
    [(TreeCode.NOP_EXPR, some ty_f64), (TreeCode.CONVERT_EXPR, some ty_f32)]
    (by intro p hp; simp only [List.mem_cons, List.not_mem_nil, or_false] at hp
        rcases hp with rfl | rfl <;> rfl)
    rfl
    (by rw [peel_conversions_unfold]; rfl)


/-- C3: for each of the four checkpoint kinds, a minimal AST with a 64-bit
source and 32-bit destination produces exactly one diagnostic whose context
label matches the checkpoint, and the widening case at the same checkpoint
produces none. The four narrowing cases cover the same-kind patterns and
both cross-kind patterns. -/
theorem checkpoint_coverage_minimal_asts :
    ((traverse_and_check_ast (some (decl_with_init ty_i32 (leaf_var ty_i64)))
        ⟨none⟩).map Diagnostic.context = ["variable initialization"]) ∧
    traverse_and_check_ast (some (decl_with_init ty_i64 (leaf_var ty_i32)))
        ⟨none⟩ = [] ∧
    ((traverse_and_check_ast (some (assign_node ty_f32 (leaf_var ty_f64)))
        ⟨none⟩).map Diagnostic.context = ["assignment"]) ∧
    traverse_and_check_ast (some (assign_node ty_f64 (leaf_var ty_f32)))
        ⟨none⟩ = [] ∧
    ((traverse_and_check_ast
        (some (call_node (fn_decl_node [ty_f32]) [leaf_var ty_i64]))
        ⟨none⟩).map Diagnostic.context = ["function argument"]) ∧
    traverse_and_check_ast
        (some (call_node (fn_decl_node [ty_i32]) [leaf_var ty_i32])) ⟨none⟩ = [] ∧
    ((traverse_and_check_ast (some (return_node (leaf_var ty_f64)))
        ⟨some ty_i32⟩).map Diagnostic.context = ["return value"]) ∧
    traverse_and_check_ast (some (return_node (leaf_var ty_i32)))
        ⟨some ty_i64⟩ = [] := by
  refine ⟨?_, ?_, ?_, ?_, ?_, ?_, ?_, ?_⟩
  all_goals
    simp [traverse_some, traverse_none, walk_children, check_current_node,
      decl_with_init, assign_node, call_node, return_node, fn_decl_node, fn_type,
      leaf_var, Tree.code, Tree.ops, Tree.stmts, DECL_INITIAL, TREE_TYPE,
      DECL_SOURCE_LOCATION, EXPR_LOCATION, UNKNOWN_LOCATION, input_location,
      CALL_EXPR_FN, CALL_EXPR_ARGS, TYPE_ARG_TYPES,
      get_fndecl_unfold, is_function_decl_code, is_callee_unwrap_code,
      check_call_args, is_void_terminator, is_void_type_node,
      check_narrowing_conversion, get_original_type, peel_conversions_unfold,
      is_conversion_wrapper, is_init_expr_code, is_error_mark, GTyp.code,
      narrowing_patterns_match, is_numeric_type, TYPE_MAIN_VARIANT, TYPE_PRECISION,
      get_type_name, TYPE_NAME, TREE_OPERAND, TREE_CODE_CLASS,
      ty_i64, ty_i32, ty_f64, ty_f32, ty_void]

theorem erase_code (t : Tree) : (erase_values t).code = t.code := by
  rcases t with ⟨c, ty, ops, di, ss, l1, l2, v⟩
  rfl

theorem TREE_TYPE_erase (t : Tree) : TREE_TYPE (erase_values t) = TREE_TYPE t := by
  rcases t with ⟨c, ty, ops, di, ss, l1, l2, v⟩
  rfl

theorem EXPR_LOCATION_erase (t : Tree) :
    EXPR_LOCATION (erase_values t) = EXPR_LOCATION t := by
  rcases t with ⟨c, ty, ops, di, ss, l1, l2, v⟩
  rfl

theorem DECL_SOURCE_LOCATION_erase (t : Tree) :
    DECL_SOURCE_LOCATION (erase_values t) = DECL_SOURCE_LOCATION t := by
  rcases t with ⟨c, ty, ops, di, ss, l1, l2, v⟩
  rfl

theorem DECL_INITIAL_erase (t : Tree) :
    DECL_INITIAL (erase_values t) = erase_values_opt (DECL_INITIAL t) := by
  rcases t with ⟨c, ty, ops, di, ss, l1, l2, v⟩
  rfl

theorem erase_ops_eq_map (l : List (Option Tree)) :
    erase_values_ops l = l.map erase_values_opt := by
  induction l with
  | nil => rfl
  | cons o r ih => simp only [erase_values_ops, List.map_cons, ih]

theorem erase_stmts_eq_map (l : List Tree) :
    erase_values_stmts l = l.map erase_values := by
  induction l with
  | nil => rfl
  | cons t r ih => simp only [erase_values_stmts, List.map_cons, ih]

theorem ops_erase (t : Tree) :
    (erase_values t).ops = t.ops.map erase_values_opt := by
  rcases t with ⟨c, ty, ops, di, ss, l1, l2, v⟩
  simp only [erase_values, Tree.ops, erase_ops_eq_map]

theorem stmts_erase (t : Tree) :
    (erase_values t).stmts = t.stmts.map erase_values := by
  rcases t with ⟨c, ty, ops, di, ss, l1, l2, v⟩
  simp only [erase_values, Tree.stmts, erase_stmts_eq_map]

theorem getD_map_erase (l : List (Option Tree)) (i : Nat) :
    (l.map erase_values_opt).getD i none = erase_values_opt (l.getD i none) := by
  induction l generalizing i with
  | nil => cases i <;> rfl
  | cons o r ih =>
    cases i with
    | zero => rfl
    | succ j => simpa using ih j

theorem TREE_OPERAND_erase (t : Tree) (i : Nat) :
    TREE_OPERAND (erase_values t) i = erase_values_opt (TREE_OPERAND t i) := by
  unfold TREE_OPERAND
  rw [ops_erase, getD_map_erase]

theorem peel_conversions_erase (o : Option Tree) :
    peel_conversions (erase_values_opt o) = erase_values_opt (peel_conversions o) := by
  match o with
  | none => simp [peel_conversions_unfold, erase_values_opt]
  | some t =>
    rw [erase_values_opt]
    rw [peel_conversions_unfold, peel_conversions_unfold]
    simp only [erase_code]
    by_cases hw : is_conversion_wrapper t.code = true
    · simp only [hw, if_true, TREE_OPERAND_erase]
      exact peel_conversions_erase (TREE_OPERAND t 0)
    · simp only [Bool.not_eq_true] at hw
      simp only [hw, Bool.false_eq_true, if_false, erase_values_opt]
termination_by szO o
decreasing_by
  exact szO_TREE_OPERAND_lt_some _ 0

theorem get_original_type_erase (o : Option Tree) :
    get_original_type (erase_values_opt o) = get_original_type o := by
  match o with
  | none => rfl
  | some t =>
    rw [erase_values_opt]
    unfold get_original_type
    simp only [erase_code]
    by_cases hi : is_init_expr_code t.code = true
    · simp only [hi, if_true, TREE_OPERAND_erase]
      rw [peel_conversions_erase]
      rcases peel_conversions (TREE_OPERAND t 1) with _ | u
      · simp only [erase_values_opt, TREE_TYPE_erase]
      · simp only [erase_values_opt, TREE_TYPE_erase]
    · simp only [Bool.not_eq_true] at hi
      simp only [hi, Bool.false_eq_true, if_false]
      have : erase_values_opt (some t) = some (erase_values t) := rfl
      rw [← this, peel_conversions_erase]
      rcases peel_conversions (some t) with _ | u
      · simp only [erase_values_opt, TREE_TYPE_erase]
      · simp only [erase_values_opt, TREE_TYPE_erase]

theorem check_narrowing_conversion_erase (loc : Nat) (to_type : Option GTyp)
    (o : Option Tree) (context : String) :
    check_narrowing_conversion loc to_type (erase_values_opt o) context =
      check_narrowing_conversion loc to_type o context := by
  unfold check_narrowing_conversion
  rw [get_original_type_erase]

theorem get_fndecl_erase (o : Option Tree) :
    get_fndecl_from_callee_expr (erase_values_opt o) =
      erase_values_opt (get_fndecl_from_callee_expr o) := by
  match o with
  | none => simp [get_fndecl_unfold, erase_values_opt]
  | some t =>
    rw [erase_values_opt]
    rw [get_fndecl_unfold, get_fndecl_unfold]
    simp only [erase_code]
    by_cases hf : is_function_decl_code t.code = true
    · simp only [hf, if_true, erase_values_opt]
    · simp only [Bool.not_eq_true] at hf
      by_cases hu : is_callee_unwrap_code t.code = true
      · simp only [hf, hu, Bool.false_eq_true, if_false, if_true, TREE_OPERAND_erase]
        exact get_fndecl_erase (TREE_OPERAND t 0)
      · simp only [Bool.not_eq_true] at hu
        simp only [hf, hu, Bool.false_eq_true, if_false, erase_values_opt]
termination_by szO o
decreasing_by
  exact szO_TREE_OPERAND_lt_some _ 0

theorem check_call_args_erase (loc : Nat) (arg_types : List (Option GTyp))
    (args : List (Option Tree)) :
    check_call_args loc arg_types (args.map erase_values_opt) =
      check_call_args loc arg_types args := by
  induction args generalizing arg_types with
  | nil => cases arg_types <;> rfl
  | cons a rest ih =>
    cases arg_types with
    | nil => rfl
    | cons pt pts =>
      by_cases hv : is_void_terminator pt = true
      · simp [check_call_args, hv]
      · simp only [Bool.not_eq_true] at hv
        simp only [List.map_cons, check_call_args, hv, Bool.false_eq_true, if_false]
        rw [ih]
        congr 1
        rcases a with _ | u
        · rfl
        · rcases pt with _ | p
          · rfl
          · show check_narrowing_conversion loc (some p)
              (erase_values_opt (some u)) "function argument" = _
            rw [check_narrowing_conversion_erase]

theorem CALL_EXPR_ARGS_erase (t : Tree) :
    CALL_EXPR_ARGS (erase_values t) = (CALL_EXPR_ARGS t).map erase_values_opt := by
  unfold CALL_EXPR_ARGS
  rw [ops_erase]
  exact Eq.symm (List.map_drop erase_values_opt t.ops 3)


theorem check_narrowing_some_erase (loc : Nat) (to_type : Option GTyp)
    (u : Tree) (context : String) :
    check_narrowing_conversion loc to_type (some (erase_values u)) context =
      check_narrowing_conversion loc to_type (some u) context :=
  check_narrowing_conversion_erase loc to_type (some u) context

set_option maxHeartbeats 3200000 in
theorem check_current_node_erase (t : Tree) (data : walk_data) :
    check_current_node (erase_values t) data = check_current_node t data := by
  unfold check_current_node
  rw [erase_code, EXPR_LOCATION_erase, DECL_SOURCE_LOCATION_erase, TREE_TYPE_erase,
    DECL_INITIAL_erase, TREE_OPERAND_erase, TREE_OPERAND_erase]
  rcases hc : t.code
  all_goals simp only [hc]
  all_goals try rfl
  all_goals
    first
    | -- MODIFY_EXPR: destination from the (erased) left operand, source the
      -- right operand
      (rcases TREE_OPERAND t 0 with _ | lhs <;>
        simp only [erase_values_opt, TREE_TYPE_erase] <;>
        rw [check_narrowing_conversion_erase])
    | -- VAR_DECL and RETURN_EXPR: source behind an optional child
      (rcases DECL_INITIAL t with _ | init <;>
        simp only [erase_values_opt] <;>
        first
        | rfl
        | rw [check_narrowing_some_erase])
    | (rcases TREE_OPERAND t 0 with _ | retval <;>
        simp only [erase_values_opt] <;>
        first
        | rfl
        | rw [check_narrowing_some_erase])
    | -- CALL_EXPR
      (rw [show CALL_EXPR_FN (erase_values t) = erase_values_opt (CALL_EXPR_FN t)
            from TREE_OPERAND_erase t 1, get_fndecl_erase]
       rcases get_fndecl_from_callee_expr (CALL_EXPR_FN t) with _ | fd
       · rfl
       · simp only [erase_values_opt, TREE_TYPE_erase]
         rw [CALL_EXPR_ARGS_erase, check_call_args_erase])

set_option maxHeartbeats 3200000 in
theorem walk_children_erase (t : Tree) :
    walk_children (erase_values t) = (walk_children t).map erase_values_opt := by
  unfold walk_children
  rw [erase_code]
  rcases hc : t.code
  all_goals simp only [hc]
  all_goals
    first
    | exact ops_erase t
    | rfl
    | simp only [BIND_EXPR_VARS, BIND_EXPR_BODY, EXPR_STMT_EXPR, IF_COND,
        THEN_CLAUSE, ELSE_CLAUSE, FOR_INIT_STMT, FOR_COND, FOR_EXPR, FOR_BODY,
        WHILE_COND, WHILE_BODY, DO_COND, DO_BODY, SWITCH_COND, SWITCH_BODY,
        CASE_LOW, CASE_HIGH, DECL_EXPR_DECL, TREE_OPERAND_erase,
        DECL_INITIAL_erase, List.map_cons, List.map_nil]
    | (rw [stmts_erase]
       simp only [List.map_map]
       rfl)
    | (split
       · exact ops_erase t
       · rfl)

theorem traverse_erase (o : Option Tree) (data : walk_data) :
    traverse_and_check_ast (erase_values_opt o) data =
      traverse_and_check_ast o data := by
  match o with
  | none => rfl
  | some t =>
    rw [erase_values_opt, traverse_some, traverse_some, check_current_node_erase,
      walk_children_erase, List.flatMap_map]
    refine congrArg _ (List.flatMap_congr ?_)
    intro c hc
    exact traverse_erase c data
termination_by szO o
decreasing_by
  exact szO_mem_walk_children_some hc

/-- C8: diagnostic emission is value-independent. Two function-body trees
that are identical except for the numeric payloads of their constant nodes
(same erasure once every payload is zeroed) produce identical diagnostic
lists: the walk never reads a constant's value. -/
theorem diagnostics_value_independent (t1 t2 : Tree) (data : walk_data)
    (h : erase_values t1 = erase_values t2) :
    traverse_and_check_ast (some t1) data = traverse_and_check_ast (some t2) data := by
  have h1 := traverse_erase (some t1) data
  have h2 := traverse_erase (some t2) data
  rw [erase_values_opt] at h1 h2
  rw [← h1, h, h2]

theorem diagnostics_value_independent_witness :
    traverse_and_check_ast
        (some (decl_with_init ty_f32 (int_cst ty_i64 1))) ⟨none⟩ =
      traverse_and_check_ast
        (some (decl_with_init ty_f32 (int_cst ty_i64 9007199254740992))) ⟨none⟩ :=
  diagnostics_value_independent
    (decl_with_init ty_f32 (int_cst ty_i64 1))
    (decl_with_init ty_f32 (int_cst ty_i64 9007199254740992)) ⟨none⟩ rfl


theorem flatMap_eq_range_getD {β : Type} (l : List (Option Tree))
    (f : Option Tree → List β) :
    l.flatMap f = (List.range l.length).flatMap (fun i => f (l.getD i none)) := by
  induction l with
  | nil => rfl
  | cons a r ih =>
    rw [List.flatMap_cons, ih, List.length_cons, List.range_succ_eq_map,
      List.flatMap_cons, List.flatMap_map]
    simp only [List.getD_cons_zero, List.getD_cons_succ, Function.comp_def]

theorem mem_visited_paths_iff (o : Option Tree) (p : List Nat) :
    p ∈ visited_paths o ↔ (node_at_path o p).isSome := by
  match o, p with
  | none, p =>
    rw [visited_paths_none]
    cases p <;> simp [node_at_path]
  | some t, [] =>
    rw [visited_paths_some]
    simp [node_at_path]
  | some t, i :: rest =>
    have IH := mem_visited_paths_iff ((walk_children t).getD i none) rest
    rw [visited_paths_some]
    simp only [List.mem_cons, List.mem_flatMap, List.mem_map, List.mem_range]
    have hred : node_at_path (some t) (i :: rest) =
        node_at_path ((walk_children t).getD i none) rest := rfl
    rw [hred]
    constructor
    · rintro (h | ⟨a, ha, q, hq, heq⟩)
      · cases h
      · obtain ⟨rfl, rfl⟩ : a = i ∧ q = rest := by
          injection heq with h1 h2
          exact ⟨h1, h2⟩
        exact IH.mp hq
    · intro h
      right
      refine ⟨i, ?_, rest, IH.mpr h, rfl⟩
      by_contra hn
      rw [List.getD_eq_default _ _ (Nat.le_of_not_lt hn)] at h
      cases rest <;> simp [node_at_path] at h
termination_by szO o
decreasing_by
  exact szO_getD_walk_children_lt_some t i

theorem visited_paths_nodup (o : Option Tree) : (visited_paths o).Nodup := by
  match o with
  | none =>
    rw [visited_paths_none]
    exact List.nodup_nil
  | some t =>
    rw [visited_paths_some, List.nodup_cons]
    constructor
    · simp only [List.mem_flatMap, List.mem_map, List.mem_range]
      rintro ⟨a, ha, q, hq, heq⟩
      cases heq
    · rw [List.nodup_flatMap]
      constructor
      · intro i hi
        exact (visited_paths_nodup ((walk_children t).getD i none)).map
          List.cons_injective
      · refine (List.pairwise_lt_range _).imp ?_
        intro i j hij
        intro x hxi hxj
        obtain ⟨q, hq, rfl⟩ := List.mem_map.mp hxi
        obtain ⟨q', hq', heq⟩ := List.mem_map.mp hxj
        injection heq with h1 h2
        omega
termination_by szO o
decreasing_by
  exact szO_getD_walk_children_lt_some t i

theorem traverse_eq_visits (o : Option Tree) (data : walk_data) :
    traverse_and_check_ast o data =
      (visited_paths o).flatMap (fun p => check_at_path o p data) := by
  match o with
  | none =>
    rw [visited_paths_none, traverse_none]
    rfl
  | some t =>
    rw [traverse_some, visited_paths_some, List.flatMap_cons]
    have hcheck : check_at_path (some t) [] data = check_current_node t data := rfl
    rw [hcheck]
    refine congrArg _ ?_
    rw [flatMap_eq_range_getD (walk_children t)
      (fun c => traverse_and_check_ast c data), List.bind_assoc]
    refine List.flatMap_congr ?_
    intro i hi
    rw [List.flatMap_map]
    have IH := traverse_eq_visits ((walk_children t).getD i none) data
    rw [IH]
    refine List.flatMap_congr ?_
    intro q hq
    rfl
termination_by szO o
decreasing_by
  exact szO_getD_walk_children_lt_some t i

/-- C1: the walk of a finite function-body AST terminates (the traversal is
a total function) and visits every node reachable through the walker's
descent relation exactly once: the visit paths are precisely the paths at
which a node exists, no path is visited twice, and the walk's output is the
concatenation, in visit order, of the checkpoint diagnostics of each
visited node. -/
theorem walk_visits_every_reachable_node_exactly_once (t : Tree) (data : walk_data) :
    (∀ p, p ∈ visited_paths (some t) ↔ (node_at_path (some t) p).isSome) ∧
    (visited_paths (some t)).Nodup ∧
    traverse_and_check_ast (some t) data =
      (visited_paths (some t)).flatMap (fun p => check_at_path (some t) p data) :=
  ⟨fun p => mem_visited_paths_iff (some t) p, visited_paths_nodup (some t),
    traverse_eq_visits (some t) data⟩

end NarrowingPlugin
